import Mathlib

/-!
Verification of the task orchestration engine of this repository
(`src/metric_caller.py`): task-specification parsing, worker dispatch,
result aggregation and the queue-based logger shutdown protocol.

The Python source is embedded shallowly:

* strings are `String` / `List Char`; Python `str.strip`, `str.split(',')`
  and `float(...)` (restricted to the character class `[0-9.]` produced by
  the task-line regex) are translated character by character (ASCII range,
  which covers every input the engine builds);
* the regex `(\w+)\((.*)\)\s*([\d.]+)` used with `re.match` is translated
  into an explicit prefix matcher with the same greedy/backtracking
  semantics (`matchTaskLine`);
* floats are modelled as exact rationals `ℚ`;
* a scorer is an abstract callable returning either a value or raising;
  `float(score)` on a composite (dict) score raises, which the worker's
  `except` clause turns into the sentinel result;
* the nondeterministic wall-clock measurement of each worker and the
  nondeterministic arrival order of results on the shared queue are
  explicit environment parameters (`measured`, `order`);
* the in-place mutation `all_args_dict['log_queue'] = log_queue` is the
  functional update `installLogQueue`, and the dispatcher returns its
  report through `Except` so that the uncaught `ValueError` of
  `float(weight_str)` is observable.
-/

/-- ASCII whitespace recognised by Python `str.strip()` / `\s`. -/
def isPySpace (c : Char) : Bool :=
  c = ' ' || c = '\t' || c = '\n' || c = '\r' || c = '\x0b' || c = '\x0c'

/-- A character of the regex class `\w` (ASCII range). -/
def isWordChar (c : Char) : Bool := c.isAlphanum || c = '_'

/-- A character of the regex class `[\d.]`. -/
def isWeightChar (c : Char) : Bool := c.isDigit || c = '.'

/-- Python `str.strip()` on a character list. -/
def pyStripChars (l : List Char) : List Char :=
  ((l.dropWhile isPySpace).reverse.dropWhile isPySpace).reverse

/-- Python `str.strip()`. -/
def pyStrip (s : String) : String := String.mk (pyStripChars s.data)

/-- Python `str.split(',')`: split at every comma, keeping empty pieces. -/
def splitComma : List Char → List (List Char)
  | [] => [[]]
  | c :: r =>
    if c = ',' then [] :: splitComma r
    else
      match splitComma r with
      | [] => [[c]]
      | p :: ps => (c :: p) :: ps

/-- `parse_keys_from_string` (metric_caller.py lines 10-14): parses a
comma-separated string of keys into a clean list. -/
def parse_keys_from_string (key_string : String) : List String :=
  if (pyStripChars key_string.data).isEmpty then []
  else (splitComma key_string.data).map (fun ks => String.mk (pyStripChars ks))

/-- After the closing parenthesis, the regex requires `\s*([\d.]+)`
(matched as a prefix; trailing characters are ignored by `re.match`).
Returns the captured weight characters. -/
def weightTail (l : List Char) : Option (List Char) :=
  let afterSpaces := l.dropWhile isPySpace
  let w := afterSpaces.takeWhile isWeightChar
  if w.isEmpty then none else some w

/-- Greedy semantics of `(.*)\)\s*([\d.]+)`: the capture group `(.*)`
(which cannot cross a newline) extends to the LAST closing parenthesis
whose tail matches `\s*([\d.]+)`. Returns (captured keys, captured weight). -/
def splitAtLastClose : List Char → Option (List Char × List Char)
  | [] => none
  | c :: rest =>
    match (if c = '\n' then none else splitAtLastClose rest) with
    | some (ks, w) => some (c :: ks, w)
    | none =>
      if c = ')' then (weightTail rest).map (fun w => (([] : List Char), w))
      else none

/-- `line_pattern.match(line)` for
`line_pattern = re.compile(r'(\w+)\((.*)\)\s*([\d.]+)')`
(metric_caller.py line 80): a prefix match returning the three captured
groups (function name, keys string, weight string). -/
def matchTaskLine (s : String) : Option (String × String × String) :=
  let l := s.data
  let name := l.takeWhile isWordChar
  let rest := l.dropWhile isWordChar
  if name.isEmpty then none
  else
    match rest with
    | '(' :: rest2 =>
      match splitAtLastClose rest2 with
      | some (ks, w) => some (String.mk name, String.mk ks, String.mk w)
      | none => none
    | _ => none

/-- Value of a big-endian list of decimal digit characters. -/
def digitsVal (l : List Char) : Nat :=
  l.foldl (fun a c => 10 * a + (c.toNat - 48)) 0

/-- Python `float(weight_str)` for a string drawn from the regex class
`[\d.]+`: such a string is a valid float literal iff it contains at most
one dot and at least one digit (e.g. `"1.2.3"` and `"."` raise
`ValueError`). The value is exact, as a rational. -/
def pyParseWeight (s : String) : Option ℚ :=
  let l := s.data
  if l.all isWeightChar ∧ l.count '.' ≤ 1 ∧ l.any Char.isDigit then
    let ip := l.takeWhile (fun c => ¬ c = '.')
    let fp := (l.dropWhile (fun c => ¬ c = '.')).drop 1
    some ((digitsVal ip : ℚ) + (digitsVal fp : ℚ) / (10 : ℚ) ^ fp.length)
  else none

/-- Opaque Python values stored in `all_args_dict` and passed to scorers. -/
inductive PyVal where
  | str (s : String)
  | int (n : Int)
  | logQueue
  | other (tag : Nat)
deriving DecidableEq

/-- The two result shapes a scorer may return as its `score` component:
a scalar float, or a composite mapping from profile name to float. -/
inductive ScoreVal where
  | scalar (q : ℚ)
  | composite (m : List (String × ℚ))
deriving DecidableEq

/-- Outcome of invoking a scorer: `ret score time_taken`, or an exception. -/
inductive ScorerOutcome where
  | ret (score : ScoreVal) (time_taken : ℚ)
  | raise

/-- The tuple `(score, time_taken, weight, func_name)` a worker puts on
`results_queue`. -/
structure WorkResult where
  score : ℚ
  time_taken : ℚ
  weight : ℚ
  func_name : String
deriving DecidableEq

/-- A registered scorer: its arity (`len(inspect.signature(f).parameters)`)
and its behaviour on a resolved argument list. -/
structure Scorer where
  arity : Nat
  run : List PyVal → ScorerOutcome

/-- A validated, dispatched task (function, weight, name, resolved args). -/
structure MetricTask where
  run : List PyVal → ScorerOutcome
  weight : ℚ
  name : String
  args : List PyVal

/-- `float(score)` inside the worker: a scalar converts to itself; a
composite (dict) raises `TypeError`. -/
def floatOfScore : ScoreVal → Option ℚ
  | .scalar q => some q
  | .composite _ => none

/-- `process_worker` (metric_caller.py lines 34-48): invokes the scorer;
on success puts `(float(score), float(time_taken), float(weight), name)`;
if the scorer raises — or `float(score)` raises, as it does for a
composite score — puts `(0, measured_elapsed, weight, name)` where
`measured_elapsed` is `time.perf_counter() - start_time`, the wall-clock
time the worker measured around the invocation. -/
def process_worker (target_func : List PyVal → ScorerOutcome) (weight : ℚ)
    (func_name : String) (args : List PyVal) (measured : ℚ) : WorkResult :=
  match target_func args with
  | .ret score t =>
    match floatOfScore score with
    | some q => ⟨q, t, weight, func_name⟩
    | none => ⟨0, measured, weight, func_name⟩
  | .raise => ⟨0, measured, weight, func_name⟩

/-- Little-endian decimal digit characters of `n`, with explicit fuel so
that the definition is structural. With fuel `≥ n + 1` it is exact. -/
def natDigitsRevAux : Nat → Nat → List Char
  | 0, _ => []
  | fuel + 1, n =>
    if n < 10 then [Nat.digitChar n]
    else Nat.digitChar (n % 10) :: natDigitsRevAux fuel (n / 10)

/-- Decimal representation of a natural number, as Python `str(n)`. -/
def natReprChars (n : Nat) : List Char := (natDigitsRevAux (n + 1) n).reverse

/-- Decimal representation of a natural number, as Python `str(n)`. -/
def natReprStr (n : Nat) : String := String.mk (natReprChars n)

/-- Value of a little-endian list of decimal digit characters. -/
def natOfDigitsRev : List Char → Nat
  | [] => 0
  | c :: r => (c.toNat - 48) + 10 * natOfDigitsRev r

/-- The unique key `f"{func_name}_{count}"` built by the aggregator
(metric_caller.py line 144). -/
def keyOf (n : String) (c : Nat) : String := n ++ "_" ++ natReprStr c

/-- Recover the function-name part of an aggregator key: strip the decimal
counter suffix and the underscore before it. -/
def nameOfKey (k : String) : String :=
  String.mk (((k.data.reverse.dropWhile Char.isDigit).drop 1).reverse)

/-- Recover the occurrence-counter part of an aggregator key. -/
def ctrOfKey (k : String) : Nat :=
  natOfDigitsRev (k.data.reverse.takeWhile Char.isDigit)

/-- Outcome of the parse-and-validate step for one line of the tasks file:
skipped (blank, or dropped with the given logged warning), a validated
task, or an uncaught exception (`float(weight_str)` raising `ValueError`). -/
inductive LineOutcome where
  | skip (warning : Option String)
  | task (t : MetricTask)
  | raiseErr

/-- One iteration of the parsing loop of `run_concurrently_from_file`
(metric_caller.py lines 88-123) on the `i`-th line: strip; skip blank
lines; match the regex (warn and skip on failure); look the function up
(warn and skip if absent); check arity against the number of keys (warn
and skip on mismatch); check every key is in the argument dictionary
(warn and skip if one is missing); finally `float(weight_str)`, which
raises `ValueError` on a matched-but-invalid weight such as `1.2.3`. -/
def parseLine (i : Nat) (available : List (String × Scorer))
    (dict : String → Option PyVal) (line : String) : LineOutcome :=
  let line := pyStrip line
  if line.isEmpty then .skip none
  else
    match matchTaskLine line with
    | none =>
      .skip (some ("[WARNING] Skipped line " ++ natReprStr i ++
        ": Could not parse syntax: '" ++ line ++ "'."))
    | some (func_name, keys_str, weight_str) =>
      match available.lookup func_name with
      | none =>
        .skip (some ("[WARNING] Skipped line " ++ natReprStr i ++
          ": Function '" ++ func_name ++ "' not found."))
      | some scorer =>
        let required_keys := parse_keys_from_string keys_str
        if required_keys.length ≠ scorer.arity then
          .skip (some ("[WARNING] Skipped line " ++ natReprStr i ++
            ": '" ++ func_name ++ "' arity mismatch."))
        else if ¬ (required_keys.all fun k => (dict k).isSome) then
          .skip (some ("[WARNING] Skipped line " ++ natReprStr i ++
            ": Missing required keys in input dictionary."))
        else
          let resolved_args := required_keys.filterMap dict
          match pyParseWeight weight_str with
          | none => .raiseErr
          | some w => .task ⟨scorer.run, w, func_name, resolved_args⟩

/-- The parsing loop over the enumerated lines of the tasks file: skipped
lines never affect later lines, a validated task is queued, and an
uncaught `ValueError` aborts the whole call. -/
def parseTasks (available : List (String × Scorer))
    (dict : String → Option PyVal) : Nat → List String → Except Unit (List MetricTask)
  | _, [] => .ok []
  | i, line :: rest =>
    match parseLine i available dict line with
    | .skip _ => parseTasks available dict (i + 1) rest
    | .task t =>
      match parseTasks available dict (i + 1) rest with
      | .ok ts => .ok (t :: ts)
      | .error e => .error e
    | .raiseErr => .error ()

/-- State of the result-collection loop (metric_caller.py lines 136-148):
the two insertion-ordered dictionaries, the running net score, and the
`defaultdict(int)` of per-name occurrence counts. -/
structure AggState where
  times : List (String × ℚ)
  scores : List (String × ℚ)
  net : ℚ
  counts : String → Nat

/-- One iteration of the collection loop: bump the occurrence counter of
the result's function name, insert score and latency under the unique key
`f"{func_name}_{count}"`, and add `score * weight` to the net score. -/
def stepAgg (st : AggState) (r : WorkResult) : AggState :=
  let c := st.counts r.func_name + 1
  { times := st.times ++ [(keyOf r.func_name c, r.time_taken)]
    scores := st.scores ++ [(keyOf r.func_name c, r.score)]
    net := st.net + r.score * r.weight
    counts := fun k => if k = r.func_name then c else st.counts k }

/-- Initial collection state: empty dictionaries, `net_score = 0.0`,
all occurrence counts zero. -/
def initAgg : AggState := ⟨[], [], 0, fun _ => 0⟩

/-- The whole result-collection loop over the (arrival-ordered) results. -/
def collectResults (rs : List WorkResult) : AggState := rs.foldl stepAgg initAgg

/-- The results the workers put on `results_queue`, in task order: the
`i`-th worker runs `process_worker` with its task's function, weight, name
and resolved arguments, `measured i` being the wall-clock time that worker
measures around its invocation. -/
def runWorkers (measured : Nat → ℚ) : Nat → List MetricTask → List WorkResult
  | _, [] => []
  | i, t :: ts =>
    process_worker t.run t.weight t.name t.args (measured i) ::
      runWorkers measured (i + 1) ts

/-- Positional lookup in a list. -/
def nth : List α → Nat → Option α
  | [], _ => none
  | a :: _, 0 => some a
  | _ :: l, n + 1 => nth l n

/-- The final report of a run: the scores dictionary (including the
`net_score` entry) and the per-call latency dictionary, both in insertion
order. -/
structure RunReport where
  scores : List (String × ℚ)
  times : List (String × ℚ)
deriving DecidableEq

/-- The mutation `all_args_dict['log_queue'] = log_queue`
(metric_caller.py line 78): bind the key `log_queue` to the logger's
inbound queue, overwriting any caller-supplied entry of that name, and
leave every other entry unchanged. -/
def installLogQueue (dict : String → Option PyVal) : String → Option PyVal :=
  fun k => if k = "log_queue" then some PyVal.logQueue else dict k

/-- Parse, dispatch, collect and report (metric_caller.py lines 80-159),
starting from the argument dictionary as it stands after the `log_queue`
insertion. If no valid task was queued the report is
`({'net_score': 0.0}, {})`. Otherwise every worker's result is collected
from the shared queue in the nondeterministic arrival order `order` (a
permutation of the task indices), and `'net_score'` is inserted after the
loop. A `ValueError` from `float(weight_str)` propagates. -/
def dispatchAndCollect (available : List (String × Scorer))
    (dict : String → Option PyVal) (lines : List String)
    (measured : Nat → ℚ) (order : List Nat) : Except Unit RunReport :=
  match parseTasks available dict 1 lines with
  | .error e => .error e
  | .ok [] => .ok ⟨[("net_score", 0)], []⟩
  | .ok (t :: ts) =>
    let results := runWorkers measured 0 (t :: ts)
    let arrived := order.filterMap (nth results)
    let st := collectResults arrived
    .ok ⟨st.scores ++ [("net_score", st.net)], st.times⟩

/-- `run_concurrently_from_file` (metric_caller.py lines 66-159): insert
the log queue into the caller's argument dictionary, then parse, dispatch,
collect and report. -/
def run_concurrently_from_file (available_functions : List (String × Scorer))
    (all_args_dict : String → Option PyVal) (lines : List String)
    (measured : Nat → ℚ) (order : List Nat) : Except Unit RunReport :=
  dispatchAndCollect available_functions (installLogQueue all_args_dict)
    lines measured order

/-- The scores dictionary of a completed run (empty if the call raised). -/
def reportScores : Except Unit RunReport → List (String × ℚ)
  | .ok r => r.scores
  | .error _ => []

/-- The latency dictionary of a completed run (empty if the call raised). -/
def reportTimes : Except Unit RunReport → List (String × ℚ)
  | .ok r => r.times
  | .error _ => []

/-- The line the logger writes when it starts (timestamp elided). -/
def logStartMarker : String := "--- Log started ---"

/-- The line the logger writes on receiving the `None` sentinel
(timestamp elided). -/
def logEndMarker : String := "--- Log ended ---"

/-- The body of the logger loop (metric_caller.py lines 23-28) over the
stream of messages it receives: each message is written through; the
`None` sentinel makes it write the end marker and break, ignoring
anything after. -/
def loggerWrites : List (Option String) → List String
  | [] => []
  | none :: _ => [logEndMarker]
  | some m :: rest => m :: loggerWrites rest

/-- `logger_process` (metric_caller.py lines 16-31): the lines written to
the log file for a given inbound message stream — the start marker, then
the loop. -/
def logger_process (msgs : List (Option String)) : List String :=
  logStartMarker :: loggerWrites msgs

/-- Observable actions of the dispatcher, in program order. -/
inductive Event where
  | collectResult (i : Nat)
  | joinWorker (i : Nat)
  | putSentinel
  | joinLogger
  | dispatcherReturn
deriving DecidableEq

/-- The shutdown sequence of `run_concurrently_from_file` for `n`
dispatched tasks, transcribed from program order: with no tasks
(lines 125-129) it puts the sentinel, joins the logger and returns; with
`n ≥ 1` tasks (lines 141-157) it first collects all `n` results, then
joins all `n` workers, and only then puts the sentinel, joins the logger
and returns. -/
def shutdownTrace (n : Nat) : List Event :=
  if n = 0 then [.putSentinel, .joinLogger, .dispatcherReturn]
  else ((List.range n).map .collectResult) ++ ((List.range n).map .joinWorker) ++
    [.putSentinel, .joinLogger, .dispatcherReturn]

/-! ## Basic facts about the worker and the collection loop -/

theorem process_worker_weight (f : List PyVal → ScorerOutcome) (w : ℚ) (n : String)
    (args : List PyVal) (m : ℚ) : (process_worker f w n args m).weight = w := by
  unfold process_worker
  cases f args with
  | ret s t => cases s <;> simp [floatOfScore]
  | raise => rfl

theorem process_worker_name (f : List PyVal → ScorerOutcome) (w : ℚ) (n : String)
    (args : List PyVal) (m : ℚ) : (process_worker f w n args m).func_name = n := by
  unfold process_worker
  cases f args with
  | ret s t => cases s <;> simp [floatOfScore]
  | raise => rfl

theorem foldl_stepAgg_net (rs : List WorkResult) :
    ∀ st : AggState, (rs.foldl stepAgg st).net =
      st.net + (rs.map fun r => r.score * r.weight).sum := by
  induction rs with
  | nil => intro st; simp
  | cons r rs ih =>
    intro st
    rw [List.foldl_cons, ih (stepAgg st r)]
    simp [stepAgg]
    ring

theorem foldl_stepAgg_scores_length (rs : List WorkResult) :
    ∀ st : AggState, (rs.foldl stepAgg st).scores.length = st.scores.length + rs.length := by
  induction rs with
  | nil => intro st; simp
  | cons r rs ih =>
    intro st
    rw [List.foldl_cons, ih (stepAgg st r)]
    simp [stepAgg]
    omega

theorem foldl_stepAgg_times_length (rs : List WorkResult) :
    ∀ st : AggState, (rs.foldl stepAgg st).times.length = st.times.length + rs.length := by
  induction rs with
  | nil => intro st; simp
  | cons r rs ih =>
    intro st
    rw [List.foldl_cons, ih (stepAgg st r)]
    simp [stepAgg]
    omega

theorem foldl_stepAgg_scores_mono (rs : List WorkResult) :
    ∀ (st : AggState) (e : String × ℚ), e ∈ st.scores → e ∈ (rs.foldl stepAgg st).scores := by
  induction rs with
  | nil => intro st e he; simpa using he
  | cons r rs ih =>
    intro st e he
    refine ih (stepAgg st r) e ?_
    simp [stepAgg, he]

theorem foldl_stepAgg_scores_mem (rs : List WorkResult) :
    ∀ (st : AggState) (r : WorkResult), r ∈ rs →
      ∃ c, (keyOf r.func_name c, r.score) ∈ (rs.foldl stepAgg st).scores := by
  induction rs with
  | nil => intro st r h; cases h
  | cons a rs ih =>
    intro st r h
    rcases List.mem_cons.mp h with h | h
    · subst h
      refine ⟨st.counts r.func_name + 1, ?_⟩
      refine foldl_stepAgg_scores_mono rs (stepAgg st r) _ ?_
      simp [stepAgg]
    · exact ih (stepAgg st a) r h

/-- CLAIM C2: the spec says a composite score is aggregated by the
arithmetic mean of its values before weighting, so that {a:1.0, b:0.0}
with weight 2.0 contributes 0.5 * 2.0 = 1.0 to the weighted sum. The code
instead calls float(score), which raises TypeError on a mapping; the
worker's except clause substitutes the sentinel, so the task contributes
0.0 — not 1.0. Counterexample at exactly the spec's example input. -/
theorem C2_counterexample :
    process_worker (fun _ => ScorerOutcome.ret (ScoreVal.composite [("a", 1), ("b", 0)]) 0)
        2 "m" [] 7 = ⟨0, 7, 2, "m"⟩ ∧
    (collectResults [process_worker
        (fun _ => ScorerOutcome.ret (ScoreVal.composite [("a", 1), ("b", 0)]) 0)
        2 "m" [] 7]).net = 0 ∧
    ((0 : ℚ) ≠ ((1 + 0) / 2) * 2) := by
  refine ⟨rfl, ?_, by norm_num⟩
  simp [collectResults, stepAgg, initAgg, process_worker, floatOfScore]

/-- CLAIM C2 (amended): a dispatched task whose scorer returns a composite
score is not averaged by the aggregator: float(score) raises inside the
worker's try block, the except clause substitutes the sentinel 0.0 (with
the worker-measured elapsed time), and the task therefore contributes
0.0 * weight to the weighted sum. -/
theorem C2_composite_sentinel (f : List PyVal → ScorerOutcome) (w : ℚ) (n : String)
    (args : List PyVal) (measured : ℚ) (m : List (String × ℚ)) (t : ℚ)
    (h : f args = ScorerOutcome.ret (ScoreVal.composite m) t) :
    process_worker f w n args measured = ⟨0, measured, w, n⟩ ∧
    ∀ rs : List WorkResult,
      (collectResults (rs ++ [process_worker f w n args measured])).net =
        (collectResults rs).net + 0 * w := by
  have hw : process_worker f w n args measured = ⟨0, measured, w, n⟩ := by
    unfold process_worker
    rw [h]
    rfl
  refine ⟨hw, fun rs => ?_⟩
  simp only [collectResults, foldl_stepAgg_net, hw, List.map_append, List.sum_append]
  simp

/-- Witness for C2_composite_sentinel at the spec's own example: the
composite {a:1.0, b:0.0} with weight 2.0. -/
theorem C2_composite_sentinel_witness :
    process_worker (fun _ => ScorerOutcome.ret (ScoreVal.composite [("a", 1), ("b", 0)]) (1/4))
        2 "m" [] 9 = ⟨0, 9, 2, "m"⟩ ∧
    ∀ rs : List WorkResult,
      (collectResults (rs ++ [process_worker
          (fun _ => ScorerOutcome.ret (ScoreVal.composite [("a", 1), ("b", 0)]) (1/4))
          2 "m" [] 9])).net = (collectResults rs).net + 0 * 2 :=
  C2_composite_sentinel _ 2 "m" [] 9 [("a", 1), ("b", 0)] (1/4) rfl

/-- CLAIM C3: a dispatched task whose scorer raises is caught inside the
worker, which emits the sentinel result (score 0, worker-measured elapsed,
the task's real weight and name); the run still completes with a full
report: every collected result — the failed one included — yields its own
entry in the scores dictionary, and the weighted sum ranges over all
collected results, so the failed task's 0 * weight term is counted rather
than the task being omitted. -/
theorem C3_failure_sentinel (f : List PyVal → ScorerOutcome) (w : ℚ) (n : String)
    (args : List PyVal) (measured : ℚ) (rs : List WorkResult)
    (h : f args = ScorerOutcome.raise) :
    process_worker f w n args measured = ⟨0, measured, w, n⟩ ∧
    (collectResults rs).scores.length = rs.length ∧
    (collectResults rs).net = (rs.map fun r => r.score * r.weight).sum ∧
    ∀ r ∈ rs, ∃ c, (keyOf r.func_name c, r.score) ∈ (collectResults rs).scores := by
  refine ⟨?_, ?_, ?_, ?_⟩
  · unfold process_worker
    rw [h]
  · simpa [initAgg] using foldl_stepAgg_scores_length rs initAgg
  · simpa [initAgg] using foldl_stepAgg_net rs initAgg
  · intro r hr
    exact foldl_stepAgg_scores_mem rs initAgg r hr

/-- Witness for C3_failure_sentinel: a scorer that always raises, with
weight 3 and one sibling result in the collection. -/
theorem C3_failure_sentinel_witness :
    process_worker (fun _ => ScorerOutcome.raise) 3 "scoreC" [] (1/5) = ⟨0, 1/5, 3, "scoreC"⟩ ∧
    (collectResults [⟨1, 2, 1, "scoreA"⟩]).scores.length = [(⟨1, 2, 1, "scoreA"⟩ : WorkResult)].length ∧
    (collectResults [⟨1, 2, 1, "scoreA"⟩]).net =
      ([(⟨1, 2, 1, "scoreA"⟩ : WorkResult)].map fun r => r.score * r.weight).sum ∧
    ∀ r ∈ [(⟨1, 2, 1, "scoreA"⟩ : WorkResult)],
      ∃ c, (keyOf r.func_name c, r.score) ∈ (collectResults [⟨1, 2, 1, "scoreA"⟩]).scores :=
  C3_failure_sentinel _ 3 "scoreC" [] (1/5) [⟨1, 2, 1, "scoreA"⟩] rfl

/-- CLAIM C4: the claim says the elapsed time emitted in a task's result is
the wall-clock time measured by the worker around the invocation, on the
success path as well as the failure path. On the success path the code
emits the scorer's self-reported time_taken, not the worker's measurement:
here the scorer self-reports 1/100 while the worker measures 5, and the
emitted elapsed is 1/100, not 5. -/
theorem C4_counterexample :
    (process_worker (fun _ => ScorerOutcome.ret (ScoreVal.scalar (4/5)) (1/100))
        1 "scoreA" [] 5).time_taken = 1/100 ∧
    ((1 : ℚ)/100 ≠ 5) := by
  exact ⟨rfl, by norm_num⟩

/-- CLAIM C4 (amended): on the failure path (the scorer raises, or
float(score) raises on a composite) the emitted elapsed time is the
wall-clock time the worker measured around the invocation; on the success
path it is the scorer's self-reported time_taken, not the worker's
measurement. -/
theorem C4_elapsed_paths (f : List PyVal → ScorerOutcome) (w : ℚ) (n : String)
    (args : List PyVal) (measured : ℚ) :
    (∀ s t q, f args = ScorerOutcome.ret s t → floatOfScore s = some q →
      (process_worker f w n args measured).time_taken = t) ∧
    (∀ s t, f args = ScorerOutcome.ret s t → floatOfScore s = none →
      (process_worker f w n args measured).time_taken = measured) ∧
    (f args = ScorerOutcome.raise →
      (process_worker f w n args measured).time_taken = measured) := by
  refine ⟨?_, ?_, ?_⟩
  · intro s t q hret hq
    simp [process_worker, hret, hq]
  · intro s t hret hq
    simp [process_worker, hret, hq]
  · intro hraise
    simp [process_worker, hraise]

/-- Witness for C4_elapsed_paths: a successful scalar scorer self-reporting
1/100 with worker measurement 5, and a raising scorer with measurement 5. -/
theorem C4_elapsed_paths_witness :
    (process_worker (fun _ => ScorerOutcome.ret (ScoreVal.scalar (4/5)) (1/100))
        1 "scoreA" [] 5).time_taken = 1/100 ∧
    (process_worker (fun _ => ScorerOutcome.raise) 1 "scoreC" [] 5).time_taken = 5 :=
  ⟨(C4_elapsed_paths (fun _ => ScorerOutcome.ret (ScoreVal.scalar (4/5)) (1/100))
      1 "scoreA" [] 5).1 (ScoreVal.scalar (4/5)) (1/100) (4/5) rfl rfl,
   (C4_elapsed_paths (fun _ => ScorerOutcome.raise) 1 "scoreC" [] 5).2.2 rfl⟩

/-! ## Properties of the aggregator's unique keys -/

theorem digitChar_isDigit (d : Nat) (h : d < 10) : (Nat.digitChar d).isDigit = true := by
  interval_cases d <;> decide

theorem digitChar_toNat (d : Nat) (h : d < 10) : (Nat.digitChar d).toNat = 48 + d := by
  interval_cases d <;> decide

theorem natDigitsRevAux_isDigit (fuel : Nat) :
    ∀ n c, c ∈ natDigitsRevAux fuel n → c.isDigit = true := by
  induction fuel with
  | zero => intro n c hc; simp [natDigitsRevAux] at hc
  | succ fuel ih =>
    intro n c hc
    by_cases h : n < 10
    · simp [natDigitsRevAux, h] at hc
      subst hc
      exact digitChar_isDigit n h
    · simp [natDigitsRevAux, h] at hc
      rcases hc with hc | hc
      · subst hc
        exact digitChar_isDigit (n % 10) (Nat.mod_lt n (by norm_num))
      · exact ih (n / 10) c hc

theorem natDigitsRevAux_ne_nil (fuel n : Nat) (h : 0 < fuel) :
    natDigitsRevAux fuel n ≠ [] := by
  cases fuel with
  | zero => omega
  | succ fuel =>
    by_cases hn : n < 10 <;> simp [natDigitsRevAux, hn]

theorem natOfDigitsRev_natDigitsRevAux (fuel : Nat) :
    ∀ n, n < fuel → natOfDigitsRev (natDigitsRevAux fuel n) = n := by
  induction fuel with
  | zero => intro n h; omega
  | succ fuel ih =>
    intro n h
    by_cases hn : n < 10
    · simp [natDigitsRevAux, hn, natOfDigitsRev, digitChar_toNat n hn]
    · have h10 : 10 ≤ n := by omega
      have hdiv : n / 10 < fuel := by
        have := Nat.div_lt_self (by omega : 0 < n) (by norm_num : 1 < 10)
        omega
      simp [natDigitsRevAux, hn, natOfDigitsRev, ih (n / 10) hdiv,
        digitChar_toNat (n % 10) (Nat.mod_lt n (by norm_num))]
      omega

theorem natReprChars_isDigit (n : Nat) : ∀ c ∈ natReprChars n, c.isDigit = true := by
  intro c hc
  exact natDigitsRevAux_isDigit (n + 1) n c (List.mem_reverse.mp hc)

theorem natReprChars_ne_nil (n : Nat) : natReprChars n ≠ [] := by
  unfold natReprChars
  intro h
  exact natDigitsRevAux_ne_nil (n + 1) n (Nat.succ_pos n) (by simpa using h)

theorem dropWhile_append_of_all {p : Char → Bool} (L M : List Char)
    (h : ∀ c ∈ L, p c = true) : List.dropWhile p (L ++ M) = List.dropWhile p M := by
  induction L with
  | nil => rfl
  | cons a L ih =>
    simp only [List.cons_append, List.dropWhile_cons, h a (by simp)]
    exact ih (fun c hc => h c (by simp [hc]))

theorem takeWhile_append_of_all {p : Char → Bool} (L M : List Char)
    (h : ∀ c ∈ L, p c = true) : List.takeWhile p (L ++ M) = L ++ List.takeWhile p M := by
  induction L with
  | nil => rfl
  | cons a L ih =>
    simp only [List.cons_append, List.takeWhile_cons, h a (by simp)]
    simp [ih (fun c hc => h c (by simp [hc]))]

theorem keyOf_data (n : String) (c : Nat) :
    (keyOf n c).data = n.data ++ '_' :: natReprChars c := by
  simp [keyOf, natReprStr]

theorem nameOfKey_keyOf (n : String) (c : Nat) : nameOfKey (keyOf n c) = n := by
  unfold nameOfKey
  rw [keyOf_data]
  have h1 : (n.data ++ '_' :: natReprChars c).reverse =
      (natReprChars c).reverse ++ '_' :: n.data.reverse := by
    simp
  rw [h1, dropWhile_append_of_all _ _
    (fun ch hch => natReprChars_isDigit c ch (List.mem_reverse.mp hch))]
  simp [List.dropWhile_cons]

theorem ctrOfKey_keyOf (n : String) (c : Nat) : ctrOfKey (keyOf n c) = c := by
  unfold ctrOfKey
  rw [keyOf_data]
  have h1 : (n.data ++ '_' :: natReprChars c).reverse =
      (natReprChars c).reverse ++ '_' :: n.data.reverse := by
    simp
  rw [h1, takeWhile_append_of_all _ _
    (fun ch hch => natReprChars_isDigit c ch (List.mem_reverse.mp hch))]
  simp only [List.takeWhile_cons]
  simpa [natReprChars] using natOfDigitsRev_natDigitsRevAux (c + 1) c (Nat.lt_succ_self c)

theorem keyOf_injective (n₁ n₂ : String) (c₁ c₂ : Nat)
    (h : keyOf n₁ c₁ = keyOf n₂ c₂) : n₁ = n₂ ∧ c₁ = c₂ := by
  constructor
  · have := congrArg nameOfKey h
    rwa [nameOfKey_keyOf, nameOfKey_keyOf] at this
  · have := congrArg ctrOfKey h
    rwa [ctrOfKey_keyOf, ctrOfKey_keyOf] at this

/-! ## The sequence of unique keys generated by the collection loop -/

/-- The defaultdict increment `func_call_counts[name] += 1`. -/
def bumpCount (counts : String → Nat) (n : String) : String → Nat :=
  fun k => if k = n then counts n + 1 else counts k

/-- The sequence of unique keys the collection loop generates for a result
list, starting from a given table of occurrence counts. -/
def keysFrom (counts : String → Nat) : List WorkResult → List String
  | [] => []
  | r :: rs =>
    keyOf r.func_name (counts r.func_name + 1) ::
      keysFrom (bumpCount counts r.func_name) rs

theorem stepAgg_counts (st : AggState) (r : WorkResult) :
    (stepAgg st r).counts = bumpCount st.counts r.func_name := rfl

theorem foldl_stepAgg_scores_keys (rs : List WorkResult) :
    ∀ st : AggState, (rs.foldl stepAgg st).scores.map Prod.fst =
      st.scores.map Prod.fst ++ keysFrom st.counts rs := by
  induction rs with
  | nil => intro st; simp [keysFrom]
  | cons r rs ih =>
    intro st
    rw [List.foldl_cons, ih (stepAgg st r)]
    simp only [stepAgg, keysFrom, List.map_append]
    simp only [List.map_cons, List.map_nil, List.append_assoc, List.cons_append,
      List.nil_append]
    rfl

theorem foldl_stepAgg_times_keys (rs : List WorkResult) :
    ∀ st : AggState, (rs.foldl stepAgg st).times.map Prod.fst =
      st.times.map Prod.fst ++ keysFrom st.counts rs := by
  induction rs with
  | nil => intro st; simp [keysFrom]
  | cons r rs ih =>
    intro st
    rw [List.foldl_cons, ih (stepAgg st r)]
    simp only [stepAgg, keysFrom, List.map_append]
    simp only [List.map_cons, List.map_nil, List.append_assoc, List.cons_append,
      List.nil_append]
    rfl

theorem counts_le_bumpCount (counts : String → Nat) (n k : String) :
    counts k ≤ bumpCount counts n k := by
  unfold bumpCount
  by_cases h : k = n <;> simp [h]

theorem keysFrom_shape (rs : List WorkResult) :
    ∀ (counts : String → Nat) (key : String), key ∈ keysFrom counts rs →
      ∃ n c, key = keyOf n c ∧ counts n < c := by
  induction rs with
  | nil => intro counts key h; simp [keysFrom] at h
  | cons r rs ih =>
    intro counts key h
    rcases List.mem_cons.mp h with h | h
    · exact ⟨r.func_name, counts r.func_name + 1, h, Nat.lt_succ_self _⟩
    · rcases ih (bumpCount counts r.func_name) key h with ⟨n, c, hk, hc⟩
      exact ⟨n, c, hk, Nat.lt_of_le_of_lt (counts_le_bumpCount counts r.func_name n) hc⟩

theorem keysFrom_nodup (rs : List WorkResult) :
    ∀ counts : String → Nat, (keysFrom counts rs).Nodup := by
  induction rs with
  | nil => intro counts; simp [keysFrom]
  | cons r rs ih =>
    intro counts
    refine List.nodup_cons.mpr ⟨?_, ih (bumpCount counts r.func_name)⟩
    intro hmem
    rcases keysFrom_shape rs (bumpCount counts r.func_name) _ hmem with ⟨n, c, hk, hc⟩
    rcases keyOf_injective _ _ _ _ hk with ⟨hn, hcc⟩
    rw [← hn] at hc
    simp [bumpCount] at hc
    omega

theorem keysFrom_ctr_ne_zero (rs : List WorkResult) (counts : String → Nat)
    (key : String) (h : key ∈ keysFrom counts rs) : ctrOfKey key ≠ 0 := by
  rcases keysFrom_shape rs counts key h with ⟨n, c, hk, hc⟩
  rw [hk, ctrOfKey_keyOf]
  omega

theorem net_score_not_mem_keysFrom (rs : List WorkResult) (counts : String → Nat) :
    "net_score" ∉ keysFrom counts rs := by
  intro h
  have := keysFrom_ctr_ne_zero rs counts _ h
  exact this (by decide)

theorem keysFrom_countP (rs : List WorkResult) :
    ∀ (counts : String → Nat) (name : String),
      (keysFrom counts rs).countP (fun k => nameOfKey k == name && ctrOfKey k != 0) =
        rs.countP (fun r => r.func_name == name) := by
  induction rs with
  | nil => intro counts name; simp [keysFrom]
  | cons r rs ih =>
    intro counts name
    simp only [keysFrom, List.countP_cons, ih (bumpCount counts r.func_name) name]
    congr 1
    simp [nameOfKey_keyOf, ctrOfKey_keyOf]

/-! ## Workers, arrival order -/

theorem runWorkers_length (measured : Nat → ℚ) (ts : List MetricTask) :
    ∀ i, (runWorkers measured i ts).length = ts.length := by
  induction ts with
  | nil => intro i; rfl
  | cons t ts ih => intro i; simp [runWorkers, ih (i + 1)]

theorem runWorkers_names (measured : Nat → ℚ) (ts : List MetricTask) :
    ∀ i, (runWorkers measured i ts).map (fun r => r.func_name) =
      ts.map (fun t => t.name) := by
  induction ts with
  | nil => intro i; rfl
  | cons t ts ih =>
    intro i
    simp [runWorkers, ih (i + 1), process_worker_name]

theorem runWorkers_weight_zero (measured : Nat → ℚ) (ts : List MetricTask)
    (hts : ∀ t ∈ ts, t.weight = 0) :
    ∀ i, ∀ r ∈ runWorkers measured i ts, r.weight = 0 := by
  induction ts with
  | nil => intro i r hr; cases hr
  | cons t ts ih =>
    intro i r hr
    rcases List.mem_cons.mp hr with hr | hr
    · rw [hr, process_worker_weight]
      exact hts t (by simp)
    · exact ih (fun u hu => hts u (by simp [hu])) (i + 1) r hr

theorem nth_range_filterMap (l : List WorkResult) :
    (List.range l.length).filterMap (nth l) = l := by
  induction l with
  | nil => rfl
  | cons a l ih =>
    rw [List.length_cons, List.range_succ_eq_map]
    simp only [List.filterMap_cons, nth, List.filterMap_map, Function.comp_def]
    simpa using ih

theorem arrived_perm (l : List WorkResult) (order : List Nat)
    (h : order.Perm (List.range l.length)) :
    (order.filterMap (nth l)).Perm l := by
  have := List.Perm.filterMap (nth l) h
  rwa [nth_range_filterMap] at this

/-! ## Run-level helpers and a concrete demonstration environment -/

theorem dispatchAndCollect_ok (available : List (String × Scorer))
    (dict : String → Option PyVal) (lines : List String) (measured : Nat → ℚ)
    (order : List Nat) (t : MetricTask) (ts : List MetricTask)
    (hp : parseTasks available dict 1 lines = .ok (t :: ts)) :
    dispatchAndCollect available dict lines measured order =
      .ok ⟨(collectResults (order.filterMap (nth (runWorkers measured 0 (t :: ts))))).scores ++
            [("net_score",
              (collectResults (order.filterMap (nth (runWorkers measured 0 (t :: ts))))).net)],
          (collectResults (order.filterMap (nth (runWorkers measured 0 (t :: ts))))).times⟩ := by
  unfold dispatchAndCollect
  rw [hp]

/-- The scorer of the spec's two-task scenario that returns 0.6 (with a
self-reported elapsed 1/100) on any input. -/
def scoreA06 : Scorer := ⟨1, fun _ => ScorerOutcome.ret (ScoreVal.scalar (3/5)) (1/100)⟩

/-- The scorer of the spec's single-task scenario that returns (0.8, 0.01). -/
def scoreA08 : Scorer := ⟨1, fun _ => ScorerOutcome.ret (ScoreVal.scalar (4/5)) (1/100)⟩

/-- A scorer that raises on every invocation. -/
def scoreCRaise : Scorer := ⟨1, fun _ => ScorerOutcome.raise⟩

/-- Registry for the two-task scenario: scoreA returning 0.6, scoreC raising. -/
def demoFunctions : List (String × Scorer) := [("scoreA", scoreA06), ("scoreC", scoreCRaise)]

/-- Registry for the single-task scenario: scoreA returning (0.8, 0.01). -/
def demoFunctions8 : List (String × Scorer) := [("scoreA", scoreA08)]

/-- Parameter store binding x and y. -/
def demoArgs : String → Option PyVal :=
  fun k => if k = "x" then some (PyVal.str "val")
    else if k = "y" then some (PyVal.str "valy") else none

/-- CLAIM C1: the spec claims net_score = (Σ effective_score_i * weight_i)
/ (Σ weight_i), and that the scenario scoreA(x) 1.0 returning 0.6 plus
scoreC(y) 3.0 raising yields net_score == 0.15. The code never divides by
the total weight: on exactly that scenario it reports net_score == 0.6,
and 0.6 ≠ (0.6*1.0 + 0.0*3.0)/(1.0 + 3.0) = 0.15. -/
theorem C1_counterexample :
    reportScores (run_concurrently_from_file demoFunctions demoArgs
        ["scoreA(x) 1.0", "scoreC(y) 3.0"] (fun _ => 0) [0, 1]) =
      [("scoreA_1", 3/5), ("scoreC_1", 0), ("net_score", 3/5)] ∧
    (((3 : ℚ)/5 * 1 + 0 * 3) / (1 + 3) = 3/20) ∧
    ((3 : ℚ)/5 ≠ 3/20) := by
  refine ⟨?_, by norm_num, by norm_num⟩
  simp +decide [run_concurrently_from_file, dispatchAndCollect, parseTasks, parseLine, pyStrip,
    pyStripChars, matchTaskLine, demoFunctions, demoArgs, parse_keys_from_string, pyParseWeight,
    digitsVal, isWeightChar, splitAtLastClose, weightTail, splitComma, isPySpace, isWordChar,
    scoreA06, scoreCRaise, runWorkers, nth, process_worker, floatOfScore, collectResults,
    stepAgg, initAgg, keyOf, natReprStr, natReprChars, natDigitsRevAux, reportScores,
    List.lookup, Nat.digitChar, installLogQueue, String.append]

/-- CLAIM C1 (amended): for every run with at least one dispatched task,
the net_score returned by run_concurrently_from_file is the plain weighted
sum Σ effective_score_i * weight_i over all dispatched tasks — it is NOT
divided by Σ weight_i. In the spec's scenario the result is 0.6, not 0.15. -/
theorem C1_net_unnormalized (available : List (String × Scorer))
    (dict : String → Option PyVal) (lines : List String) (measured : Nat → ℚ)
    (order : List Nat) (t : MetricTask) (ts : List MetricTask)
    (hp : parseTasks available (installLogQueue dict) 1 lines = .ok (t :: ts))
    (hord : order.Perm (List.range (t :: ts).length)) :
    ∃ pre, reportScores (run_concurrently_from_file available dict lines measured order) =
      pre ++ [("net_score",
        ((runWorkers measured 0 (t :: ts)).map fun r => r.score * r.weight).sum)] := by
  have hrun := dispatchAndCollect_ok available (installLogQueue dict) lines measured order t ts hp
  have hperm : (order.filterMap (nth (runWorkers measured 0 (t :: ts)))).Perm
      (runWorkers measured 0 (t :: ts)) := by
    refine arrived_perm _ order ?_
    rwa [runWorkers_length]
  refine ⟨(collectResults (order.filterMap (nth (runWorkers measured 0 (t :: ts))))).scores, ?_⟩
  rw [run_concurrently_from_file, hrun]
  simp only [reportScores]
  congr 2
  rw [collectResults, foldl_stepAgg_net]
  simp only [initAgg, zero_add]
  exact congrArg (fun q => ("net_score", q))
    ((hperm.map fun r => r.score * r.weight).sum_eq)

/-- Witness for C1_net_unnormalized at the spec's two-task scenario. -/
theorem C1_net_unnormalized_witness :
    ∃ pre, reportScores (run_concurrently_from_file demoFunctions demoArgs
        ["scoreA(x) 1.0", "scoreC(y) 3.0"] (fun _ => 0) [0, 1]) =
      pre ++ [("net_score",
        ((runWorkers (fun _ => 0) 0
            [⟨scoreA06.run, 1, "scoreA", [PyVal.str "val"]⟩,
             ⟨scoreCRaise.run, 3, "scoreC", [PyVal.str "valy"]⟩]).map
          fun r => r.score * r.weight).sum)] :=
  C1_net_unnormalized demoFunctions demoArgs ["scoreA(x) 1.0", "scoreC(y) 3.0"]
    (fun _ => 0) [0, 1]
    ⟨scoreA06.run, 1, "scoreA", [PyVal.str "val"]⟩
    [⟨scoreCRaise.run, 3, "scoreC", [PyVal.str "valy"]⟩]
    (by simp +decide [parseTasks, parseLine, pyStrip, pyStripChars, matchTaskLine,
      demoFunctions, demoArgs, parse_keys_from_string, pyParseWeight, digitsVal, isWeightChar,
      splitAtLastClose, weightTail, splitComma, isPySpace, isWordChar, scoreA06, scoreCRaise,
      List.lookup, Nat.digitChar, installLogQueue])
    (by decide)

/-- CLAIM C5: the spec claims every malformed line — including one whose
weight field is not a valid float literal, such as "1.2.3" — is skipped
with a logged warning and never aborts parsing of later lines. But
"scoreA(x) 1.2.3" matches the line regex (the weight group [\d.]+ accepts
it), passes every validation check, and then float("1.2.3") raises an
uncaught ValueError: the whole call aborts and the following valid line
"scoreA(x) 1.0" is never dispatched. -/
theorem C5_counterexample :
    matchTaskLine "scoreA(x) 1.2.3" = some ("scoreA", "x", "1.2.3") ∧
    pyParseWeight "1.2.3" = none ∧
    run_concurrently_from_file demoFunctions demoArgs
      ["scoreA(x) 1.2.3", "scoreA(x) 1.0"] (fun _ => 0) [0] = .error () := by
  refine ⟨by decide, by decide, ?_⟩
  simp +decide [run_concurrently_from_file, dispatchAndCollect, parseTasks, parseLine, pyStrip,
    pyStripChars, matchTaskLine, demoFunctions, demoArgs, parse_keys_from_string, pyParseWeight,
    digitsVal, isWeightChar, splitAtLastClose, weightTail, splitComma, isPySpace, isWordChar,
    scoreA06, scoreCRaise, List.lookup, Nat.digitChar, installLogQueue]

/-- CLAIM C5 (amended): a line that fails the grammar (or names an unknown
function, or has an arity mismatch or a missing key) is skipped — with a
logged warning when it is non-blank — and parsing continues with the
remaining lines; but a line whose weight field matches the regex class
[\d.]+ while not being a valid float literal (e.g. "1.2.3") raises an
uncaught ValueError in float() that aborts the entire run. -/
theorem C5_parse_best_effort_except_weight (i : Nat)
    (available : List (String × Scorer)) (dict : String → Option PyVal)
    (line : String) (rest : List String) :
    (∀ w, parseLine i available dict line = .skip w →
      parseTasks available dict i (line :: rest) = parseTasks available dict (i + 1) rest) ∧
    ((pyStrip line).isEmpty = false → matchTaskLine (pyStrip line) = none →
      ∃ msg, parseLine i available dict line = .skip (some msg)) ∧
    (parseLine i available dict line = .raiseErr →
      parseTasks available dict i (line :: rest) = .error ()) := by
  refine ⟨?_, ?_, ?_⟩
  · intro w h
    simp [parseTasks, h]
  · intro h1 h2
    refine ⟨"[WARNING] Skipped line " ++ natReprStr i ++
      ": Could not parse syntax: '" ++ pyStrip line ++ "'.", ?_⟩
    simp [parseLine, h1, h2]
  · intro h
    simp [parseTasks, h]

/-- Witness for C5_parse_best_effort_except_weight: the unknown-function
line is skipped and parsing continues; the syntax-error line yields a
warning; the weight "1.2.3" line aborts. -/
theorem C5_parse_best_effort_except_weight_witness :
    parseTasks demoFunctions demoArgs 1 ["unknownFn(x) 1.0", "scoreA(x) 1.0"] =
      parseTasks demoFunctions demoArgs 2 ["scoreA(x) 1.0"] ∧
    (∃ msg, parseLine 1 demoFunctions demoArgs "???" = .skip (some msg)) ∧
    parseTasks demoFunctions demoArgs 1 ["scoreA(x) 1.2.3"] = .error () := by
  refine ⟨?_, ?_, ?_⟩
  · exact (C5_parse_best_effort_except_weight 1 demoFunctions demoArgs
      "unknownFn(x) 1.0" ["scoreA(x) 1.0"]).1
      (some "[WARNING] Skipped line 1: Function 'unknownFn' not found.")
      (by simp +decide [parseLine, pyStrip, pyStripChars, matchTaskLine, demoFunctions,
        parse_keys_from_string, splitAtLastClose, weightTail, splitComma, isPySpace,
        isWordChar, isWeightChar, List.lookup, Nat.digitChar, natReprStr, natReprChars,
        natDigitsRevAux])
  · exact (C5_parse_best_effort_except_weight 1 demoFunctions demoArgs "???" []).2.1
      (by decide) (by decide)
  · exact (C5_parse_best_effort_except_weight 1 demoFunctions demoArgs
      "scoreA(x) 1.2.3" []).2.2
      (by simp +decide [parseLine, pyStrip, pyStripChars, matchTaskLine, demoFunctions,
        demoArgs, parse_keys_from_string, pyParseWeight, digitsVal, isWeightChar,
        splitAtLastClose, weightTail, splitComma, isPySpace, isWordChar, scoreA06,
        List.lookup, Nat.digitChar, installLogQueue])

/-- CLAIM C7: if every validated task has weight 0.0 — in particular if no
valid task was parsed at all — run_concurrently_from_file raises no
exception and returns net_score == 0.0 exactly: the code never divides by
the total weight, and the weighted sum Σ score_i * 0 is exactly 0. -/
theorem C7_zero_total_weight (available : List (String × Scorer))
    (dict : String → Option PyVal) (lines : List String) (measured : Nat → ℚ)
    (order : List Nat) (tasks : List MetricTask)
    (hp : parseTasks available (installLogQueue dict) 1 lines = .ok tasks)
    (hw : ∀ tk ∈ tasks, tk.weight = 0)
    (hord : order.Perm (List.range tasks.length)) :
    ∃ rep, run_concurrently_from_file available dict lines measured order = .ok rep ∧
      ∃ pre, rep.scores = pre ++ [("net_score", 0)] := by
  cases tasks with
  | nil =>
    refine ⟨⟨[("net_score", 0)], []⟩, ?_, [], rfl⟩
    rw [run_concurrently_from_file]
    unfold dispatchAndCollect
    rw [hp]
  | cons t ts =>
    have hrun := dispatchAndCollect_ok available (installLogQueue dict) lines measured order t ts hp
    have hperm : (order.filterMap (nth (runWorkers measured 0 (t :: ts)))).Perm
        (runWorkers measured 0 (t :: ts)) := by
      refine arrived_perm _ order ?_
      rwa [runWorkers_length]
    have hnet : (collectResults (order.filterMap (nth (runWorkers measured 0 (t :: ts))))).net = 0 := by
      rw [collectResults, foldl_stepAgg_net]
      simp only [initAgg, zero_add]
      refine List.sum_eq_zero ?_
      intro x hx
      rcases List.mem_map.mp hx with ⟨r, hr, hxr⟩
      have hrw : r.weight = 0 :=
        runWorkers_weight_zero measured (t :: ts) hw 0 r (hperm.mem_iff.mp hr)
      rw [← hxr, hrw, mul_zero]
    refine ⟨_, by rw [run_concurrently_from_file]; exact hrun, ?_⟩
    refine ⟨(collectResults (order.filterMap (nth (runWorkers measured 0 (t :: ts))))).scores, ?_⟩
    rw [hnet]

/-- Witness for C7_zero_total_weight: the single task scoreA(x) 0.0,
whose parsed weight is exactly 0. -/
theorem C7_zero_total_weight_witness :
    ∃ rep, run_concurrently_from_file demoFunctions demoArgs ["scoreA(x) 0.0"]
        (fun _ => 0) [0] = .ok rep ∧
      ∃ pre, rep.scores = pre ++ [("net_score", 0)] :=
  C7_zero_total_weight demoFunctions demoArgs ["scoreA(x) 0.0"] (fun _ => 0) [0]
    [⟨scoreA06.run, 0, "scoreA", [PyVal.str "val"]⟩]
    (by simp +decide [parseTasks, parseLine, pyStrip, pyStripChars, matchTaskLine,
      demoFunctions, demoArgs, parse_keys_from_string, pyParseWeight, digitsVal, isWeightChar,
      splitAtLastClose, weightTail, splitComma, isPySpace, isWordChar, scoreA06, scoreCRaise,
      List.lookup, Nat.digitChar, installLogQueue])
    (by intro tk htk; simp at htk; rw [htk])
    (by decide)

/-- CLAIM C8: the spec claims that for the single line scoreA(x) 1.0,
where scoreA returns (0.8, 0.01) and the store binds x, the scores map is
exactly {"scoreA": 0.8, "net_score": 0.8}. The code keys even a single
occurrence by its per-name occurrence counter: the entry is "scoreA_1",
and no "scoreA" key exists in the report. -/
theorem C8_counterexample :
    (reportScores (run_concurrently_from_file demoFunctions8 demoArgs
        ["scoreA(x) 1.0"] (fun _ => 0) [0])).lookup "scoreA" = none ∧
    (reportScores (run_concurrently_from_file demoFunctions8 demoArgs
        ["scoreA(x) 1.0"] (fun _ => 0) [0])).lookup "scoreA_1" = some (4/5) := by
  constructor <;>
  simp +decide [run_concurrently_from_file, dispatchAndCollect, parseTasks, parseLine, pyStrip,
    pyStripChars, matchTaskLine, demoFunctions8, demoArgs, parse_keys_from_string, pyParseWeight,
    digitsVal, isWeightChar, splitAtLastClose, weightTail, splitComma, isPySpace, isWordChar,
    scoreA08, runWorkers, nth, process_worker, floatOfScore, collectResults,
    stepAgg, initAgg, keyOf, natReprStr, natReprChars, natDigitsRevAux, reportScores,
    List.lookup, Nat.digitChar, installLogQueue, String.append]

/-- CLAIM C8 (amended): for the single line scoreA(x) 1.0 where scoreA
returns (0.8, 0.01), the returned scores map is exactly
{"scoreA_1": 0.8, "net_score": 0.8} (and the latency map is
{"scoreA_1": 0.01}): a single occurrence is keyed by name_1, not by the
bare function name. -/
theorem C8_single_occurrence_keyed :
    reportScores (run_concurrently_from_file demoFunctions8 demoArgs
        ["scoreA(x) 1.0"] (fun _ => 0) [0]) =
      [("scoreA_1", 4/5), ("net_score", 4/5)] ∧
    reportTimes (run_concurrently_from_file demoFunctions8 demoArgs
        ["scoreA(x) 1.0"] (fun _ => 0) [0]) = [("scoreA_1", 1/100)] := by
  constructor <;>
  simp +decide [run_concurrently_from_file, dispatchAndCollect, parseTasks, parseLine, pyStrip,
    pyStripChars, matchTaskLine, demoFunctions8, demoArgs, parse_keys_from_string, pyParseWeight,
    digitsVal, isWeightChar, splitAtLastClose, weightTail, splitComma, isPySpace, isWordChar,
    scoreA08, runWorkers, nth, process_worker, floatOfScore, collectResults,
    stepAgg, initAgg, keyOf, natReprStr, natReprChars, natDigitsRevAux, reportScores,
    reportTimes, List.lookup, Nat.digitChar, installLogQueue, String.append]

theorem runWorkers_countP_name (measured : Nat → ℚ) (ts : List MetricTask) (i : Nat)
    (name : String) :
    (runWorkers measured i ts).countP (fun r => r.func_name == name) =
      ts.countP (fun tk => tk.name == name) := by
  have h := congrArg (List.countP (fun s => s == name)) (runWorkers_names measured ts i)
  simpa [List.countP_map, Function.comp_def] using h

/-- CLAIM C6: a specification with N valid occurrences of the same function
name yields N distinct entries for that function in both the scores map
and the latency map — each keyed by the per-name occurrence counter, none
overwritten: all keys of both maps are pairwise distinct, the maps have
one entry per dispatched task (plus the net_score entry in the scores
map), and for every function name the number of task entries keyed for it
equals the number of validated tasks with that name. -/
theorem C6_distinct_entries (available : List (String × Scorer))
    (dict : String → Option PyVal) (lines : List String) (measured : Nat → ℚ)
    (order : List Nat) (t : MetricTask) (ts : List MetricTask)
    (hp : parseTasks available (installLogQueue dict) 1 lines = .ok (t :: ts))
    (hord : order.Perm (List.range (t :: ts).length)) :
    ((reportScores (run_concurrently_from_file available dict lines measured order)).map
        Prod.fst).Nodup ∧
    ((reportTimes (run_concurrently_from_file available dict lines measured order)).map
        Prod.fst).Nodup ∧
    (reportScores (run_concurrently_from_file available dict lines measured order)).length =
      (t :: ts).length + 1 ∧
    (reportTimes (run_concurrently_from_file available dict lines measured order)).length =
      (t :: ts).length ∧
    (∀ name, (reportScores (run_concurrently_from_file available dict lines measured
        order)).countP (fun e => nameOfKey e.1 == name && ctrOfKey e.1 != 0) =
      (t :: ts).countP (fun tk => tk.name == name)) ∧
    (∀ name, (reportTimes (run_concurrently_from_file available dict lines measured
        order)).countP (fun e => nameOfKey e.1 == name && ctrOfKey e.1 != 0) =
      (t :: ts).countP (fun tk => tk.name == name)) := by
  have hrun := dispatchAndCollect_ok available (installLogQueue dict) lines measured order t ts hp
  have hperm : (order.filterMap (nth (runWorkers measured 0 (t :: ts)))).Perm
      (runWorkers measured 0 (t :: ts)) := by
    refine arrived_perm _ order ?_
    rwa [runWorkers_length]
  have hlen : (order.filterMap (nth (runWorkers measured 0 (t :: ts)))).length =
      (t :: ts).length := by
    rw [hperm.length_eq, runWorkers_length]
  have hS : reportScores (run_concurrently_from_file available dict lines measured order) =
      (collectResults (order.filterMap (nth (runWorkers measured 0 (t :: ts))))).scores ++
        [("net_score",
          (collectResults (order.filterMap (nth (runWorkers measured 0 (t :: ts))))).net)] := by
    rw [run_concurrently_from_file, hrun]
    rfl
  have hT : reportTimes (run_concurrently_from_file available dict lines measured order) =
      (collectResults (order.filterMap (nth (runWorkers measured 0 (t :: ts))))).times := by
    rw [run_concurrently_from_file, hrun]
    rfl
  have hkS : (collectResults (order.filterMap (nth (runWorkers measured 0
      (t :: ts))))).scores.map Prod.fst =
      keysFrom (fun _ => 0) (order.filterMap (nth (runWorkers measured 0 (t :: ts)))) := by
    rw [collectResults, foldl_stepAgg_scores_keys]
    simp [initAgg]
  have hkT : (collectResults (order.filterMap (nth (runWorkers measured 0
      (t :: ts))))).times.map Prod.fst =
      keysFrom (fun _ => 0) (order.filterMap (nth (runWorkers measured 0 (t :: ts)))) := by
    rw [collectResults, foldl_stepAgg_times_keys]
    simp [initAgg]
  have hcount : ∀ name,
      (keysFrom (fun _ => 0) (order.filterMap (nth (runWorkers measured 0
        (t :: ts))))).countP (fun k => nameOfKey k == name && ctrOfKey k != 0) =
        (t :: ts).countP (fun tk => tk.name == name) := by
    intro name
    rw [keysFrom_countP, hperm.countP_eq, runWorkers_countP_name]
  have hnspred : ∀ name : String,
      (nameOfKey "net_score" == name && ctrOfKey "net_score" != 0) = false := by
    intro name
    have : (ctrOfKey "net_score" != 0) = false := by decide
    rw [this, Bool.and_false]
  refine ⟨?_, ?_, ?_, ?_, ?_, ?_⟩
  · rw [hS, List.map_append, hkS]
    refine List.Nodup.append (keysFrom_nodup _ _) (by simp) ?_
    intro a ha hb
    simp at hb
    rw [hb] at ha
    exact net_score_not_mem_keysFrom _ _ ha
  · rw [hT, hkT]
    exact keysFrom_nodup _ _
  · rw [hS, List.length_append]
    have := foldl_stepAgg_scores_length
      (order.filterMap (nth (runWorkers measured 0 (t :: ts)))) initAgg
    rw [collectResults, this]
    simp [initAgg, hlen]
  · rw [hT]
    have := foldl_stepAgg_times_length
      (order.filterMap (nth (runWorkers measured 0 (t :: ts)))) initAgg
    rw [collectResults, this]
    simp [initAgg, hlen]
  · intro name
    rw [hS, List.countP_append]
    have h1 : (collectResults (order.filterMap (nth (runWorkers measured 0
        (t :: ts))))).scores.countP (fun e => nameOfKey e.1 == name && ctrOfKey e.1 != 0) =
        (keysFrom (fun _ => 0) (order.filterMap (nth (runWorkers measured 0
          (t :: ts))))).countP (fun k => nameOfKey k == name && ctrOfKey k != 0) := by
      rw [← hkS, List.countP_map]
      simp [Function.comp_def]
    rw [h1, hcount name]
    simp [List.countP_cons, hnspred name]
  · intro name
    rw [hT]
    have h1 : (collectResults (order.filterMap (nth (runWorkers measured 0
        (t :: ts))))).times.countP (fun e => nameOfKey e.1 == name && ctrOfKey e.1 != 0) =
        (keysFrom (fun _ => 0) (order.filterMap (nth (runWorkers measured 0
          (t :: ts))))).countP (fun k => nameOfKey k == name && ctrOfKey k != 0) := by
      rw [← hkT, List.countP_map]
      simp [Function.comp_def]
    rw [h1, hcount name]

/-- Witness for C6_distinct_entries: two occurrences of scoreA. -/
theorem C6_distinct_entries_witness :
    ((reportScores (run_concurrently_from_file demoFunctions demoArgs
        ["scoreA(x) 1.0", "scoreA(x) 2.0"] (fun _ => 0) [0, 1])).map Prod.fst).Nodup ∧
    ((reportTimes (run_concurrently_from_file demoFunctions demoArgs
        ["scoreA(x) 1.0", "scoreA(x) 2.0"] (fun _ => 0) [0, 1])).map Prod.fst).Nodup ∧
    (reportScores (run_concurrently_from_file demoFunctions demoArgs
        ["scoreA(x) 1.0", "scoreA(x) 2.0"] (fun _ => 0) [0, 1])).length =
      ([⟨scoreA06.run, 1, "scoreA", [PyVal.str "val"]⟩,
        (⟨scoreA06.run, 2, "scoreA", [PyVal.str "val"]⟩ : MetricTask)]).length + 1 ∧
    (reportTimes (run_concurrently_from_file demoFunctions demoArgs
        ["scoreA(x) 1.0", "scoreA(x) 2.0"] (fun _ => 0) [0, 1])).length =
      ([⟨scoreA06.run, 1, "scoreA", [PyVal.str "val"]⟩,
        (⟨scoreA06.run, 2, "scoreA", [PyVal.str "val"]⟩ : MetricTask)]).length ∧
    (∀ name, (reportScores (run_concurrently_from_file demoFunctions demoArgs
        ["scoreA(x) 1.0", "scoreA(x) 2.0"] (fun _ => 0) [0, 1])).countP
          (fun e => nameOfKey e.1 == name && ctrOfKey e.1 != 0) =
      ([⟨scoreA06.run, 1, "scoreA", [PyVal.str "val"]⟩,
        (⟨scoreA06.run, 2, "scoreA", [PyVal.str "val"]⟩ : MetricTask)]).countP
          (fun tk => tk.name == name)) ∧
    (∀ name, (reportTimes (run_concurrently_from_file demoFunctions demoArgs
        ["scoreA(x) 1.0", "scoreA(x) 2.0"] (fun _ => 0) [0, 1])).countP
          (fun e => nameOfKey e.1 == name && ctrOfKey e.1 != 0) =
      ([⟨scoreA06.run, 1, "scoreA", [PyVal.str "val"]⟩,
        (⟨scoreA06.run, 2, "scoreA", [PyVal.str "val"]⟩ : MetricTask)]).countP
          (fun tk => tk.name == name)) :=
  C6_distinct_entries demoFunctions demoArgs ["scoreA(x) 1.0", "scoreA(x) 2.0"]
    (fun _ => 0) [0, 1]
    ⟨scoreA06.run, 1, "scoreA", [PyVal.str "val"]⟩
    [⟨scoreA06.run, 2, "scoreA", [PyVal.str "val"]⟩]
    (by simp +decide [parseTasks, parseLine, pyStrip, pyStripChars, matchTaskLine,
      demoFunctions, demoArgs, parse_keys_from_string, pyParseWeight, digitsVal, isWeightChar,
      splitAtLastClose, weightTail, splitComma, isPySpace, isWordChar, scoreA06, scoreCRaise,
      List.lookup, Nat.digitChar, installLogQueue])
    (by decide)

/-! ## The logger shutdown protocol -/

theorem loggerWrites_map_some (msgs : List String) :
    loggerWrites (msgs.map some ++ [none]) = msgs ++ [logEndMarker] := by
  induction msgs with
  | nil => rfl
  | cons m msgs ih => simp [loggerWrites, ih]

/-- CLAIM C9: in the dispatcher's program order, the None sentinel is put
on the log queue only after every result has been collected and every
worker process has been joined, and the logger is joined — and the call
returns — only after that; and on receiving the sentinel the logger stops,
having written every message submitted before the sentinel followed by the
end marker, so no trailing log line is lost. -/
theorem C9_shutdown_protocol (n : Nat) :
    (∃ pre, shutdownTrace n =
        pre ++ [Event.putSentinel, Event.joinLogger, Event.dispatcherReturn] ∧
      ∀ i < n, Event.collectResult i ∈ pre ∧ Event.joinWorker i ∈ pre) ∧
    (∀ msgs : List String, logger_process (msgs.map some ++ [none]) =
      logStartMarker :: (msgs ++ [logEndMarker])) := by
  constructor
  · by_cases h : n = 0
    · subst h
      refine ⟨[], by simp [shutdownTrace], ?_⟩
      intro i hi
      omega
    · refine ⟨(List.range n).map Event.collectResult ++ (List.range n).map Event.joinWorker,
        ?_, ?_⟩
      · simp [shutdownTrace, h]
      · intro i hi
        constructor
        · refine List.mem_append.mpr (Or.inl ?_)
          exact List.mem_map.mpr ⟨i, List.mem_range.mpr hi, rfl⟩
        · refine List.mem_append.mpr (Or.inr ?_)
          exact List.mem_map.mpr ⟨i, List.mem_range.mpr hi, rfl⟩
  · intro msgs
    simp [logger_process, loggerWrites_map_some]

/-- Witness for C9_shutdown_protocol at n = 2 workers. -/
theorem C9_shutdown_protocol_witness :
    (∃ pre, shutdownTrace 2 =
        pre ++ [Event.putSentinel, Event.joinLogger, Event.dispatcherReturn] ∧
      ∀ i < 2, Event.collectResult i ∈ pre ∧ Event.joinWorker i ∈ pre) ∧
    (∀ msgs : List String, logger_process (msgs.map some ++ [none]) =
      logStartMarker :: (msgs ++ [logEndMarker])) :=
  C9_shutdown_protocol 2

/-- CLAIM C10: run_concurrently_from_file mutates the caller-supplied
parameter mapping before parsing begins: the key log_queue is bound to the
logger's inbound queue — overwriting any caller-supplied entry of that
name — while every other key keeps its original binding, and the whole run
operates on exactly this updated mapping. -/
theorem C10_log_queue_mutation (available : List (String × Scorer))
    (dict : String → Option PyVal) (lines : List String) (measured : Nat → ℚ)
    (order : List Nat) :
    installLogQueue dict "log_queue" = some PyVal.logQueue ∧
    (∀ k, k ≠ "log_queue" → installLogQueue dict k = dict k) ∧
    run_concurrently_from_file available dict lines measured order =
      dispatchAndCollect available (installLogQueue dict) lines measured order := by
  refine ⟨by simp [installLogQueue], ?_, rfl⟩
  intro k hk
  simp [installLogQueue, hk]

/-- Witness for C10_log_queue_mutation: a store that itself binds
log_queue (to a caller value) and x; the run overwrites log_queue and
keeps x. -/
theorem C10_log_queue_mutation_witness :
    installLogQueue demoArgs "log_queue" = some PyVal.logQueue ∧
    installLogQueue demoArgs "x" = demoArgs "x" ∧
    run_concurrently_from_file demoFunctions demoArgs [] (fun _ => 0) [] =
      dispatchAndCollect demoFunctions (installLogQueue demoArgs) [] (fun _ => 0) [] :=
  ⟨(C10_log_queue_mutation demoFunctions demoArgs [] (fun _ => 0) []).1,
   (C10_log_queue_mutation demoFunctions demoArgs [] (fun _ => 0) []).2.1 "x" (by decide),
   (C10_log_queue_mutation demoFunctions demoArgs [] (fun _ => 0) []).2.2⟩
